import Mathlib

/-!
Verification of the voxel-engine world subsystem (package `internal/world`:
`blocks.go`, `chunks.go`, `world.go`) against its specification.

Shallow embedding conventions:
* Go `int` is `ℤ` (no overflow occurs at the magnitudes involved);
  Go truncating division/remainder are `Int.tdiv` / `Int.tmod`.
* Go `float32`/`float64` values are modelled by `ℚ`; the opensimplex noise
  generator (an external library, seeded once) is an abstract parameter of
  type `ℚ → ℚ → ℚ` carried in the `World` structure, so "fixed seed" means
  "fixed noise function".
* `math.Sqrt(d) > 18` on a nonnegative integer `d` is modelled by the
  equivalent integer comparison `324 < d` (see `sqrt_gt_18_iff` below).
* The chunk map `map[[2]int]*Chunk` is modelled as `Int × Int → Option Chunk`;
  Go map deletion/insertion become pointwise functional update.  GPU calls
  (`gl.*`) are resource side effects with no bearing on the store state and
  are dropped; a chunk's `Mesh` keeps the vertex buffer as `Option (List Vertex)`
  (`VertexCount` is its length: the Go code stores 8 floats per vertex and
  sets `VertexCount = len(vertices)/8`).
* A chunk's `Blocks` array `[16][256][16]Block` is modelled as a total
  function `Int → Int → Int → BlockType`; the program only ever reads indices
  inside the array bounds, exactly as the Go code does.
-/

/-! ## blocks.go -/

abbrev BlockType := Nat

def BlockAir : BlockType := 0
def BlockDirt : BlockType := 1
def BlockGrass : BlockType := 2
def BlockStone : BlockType := 3

/-- Modelled from the spec: the `blocks.go` revision present in the source tree
declares only Air/Dirt/Grass/Stone, while `world.go` also uses `BlockSnow` and
`BlockSand`; the spec's data model lists {Air, Dirt, Grass, Stone, Sand, Snow, …}.
The numeric values only need to be distinct from each other and from Air. -/
def BlockSnow : BlockType := 4

/-- Modelled from the spec: see `BlockSnow`. -/
def BlockSand : BlockType := 5

def TextureWidth : ℚ := 1152
def TextureHeight : ℚ := 1280
def TileSize : ℚ := 128

def TexDirt : ℚ × ℚ := (6, 0)
def TexGrassTop : ℚ × ℚ := (8, 0)
def TexGrassSide : ℚ × ℚ := (7, 4)
def TexStone : ℚ × ℚ := (3, 5)

def GetBlockUVs (blockType : BlockType) (faceDirection : Nat) : ℚ × ℚ :=
  let tileCoords : ℚ × ℚ :=
    if blockType = BlockDirt then TexDirt
    else if blockType = BlockStone then TexStone
    else if blockType = BlockGrass then
      if faceDirection = 4 then TexGrassTop
      else if faceDirection = 5 then TexDirt
      else TexGrassSide
    else (0, 0)
  (tileCoords.1 * TileSize / TextureWidth, tileCoords.2 * TileSize / TextureHeight)

/-! ## world.go constants and data model -/

abbrev ChunkSize : Int := 16
abbrev ChunkHeight : Int := 256
abbrev RenderDistance : Int := 16

/-- One vertex of a chunk mesh: the 8 floats `X, Y, Z, U, V, Nx, Ny, Nz`
appended per `appendVert` call in `addFace`. -/
structure Vertex where
  px : ℚ
  py : ℚ
  pz : ℚ
  u : ℚ
  v : ℚ
  nx : ℚ
  ny : ℚ
  nz : ℚ

structure Chunk where
  X : Int
  Z : Int
  Blocks : Int → Int → Int → BlockType
  Mesh : Option (List Vertex)

structure World where
  noise : ℚ → ℚ → ℚ
  chunks : Int × Int → Option Chunk

/-! ## chunks.go: addFace and generateMesh -/

/-- `addFace` of chunks.go: emits one textured quad (two triangles, 6 vertices)
for face direction `face` (0 front +Z, 1 back −Z, 2 right +X, 3 left −X,
4 top +Y, 5 bottom −Y).  The Go switch sets exactly one normal component;
faces outside 0..5 append nothing (the Go if/else chain has no final else). -/
def addFace (x y z : ℚ) (face : Nat) (bType : BlockType) : List Vertex :=
  let uv := GetBlockUVs bType face
  let u := uv.1
  let v := uv.2
  let nx : ℚ := if face = 2 then 1 else if face = 3 then -1 else 0
  let ny : ℚ := if face = 4 then 1 else if face = 5 then -1 else 0
  let nz : ℚ := if face = 0 then 1 else if face = 1 then -1 else 0
  let uSize : ℚ := TileSize / TextureWidth
  let vSize : ℚ := TileSize / TextureHeight
  let appendVert : ℚ → ℚ → ℚ → ℚ → ℚ → Vertex := fun vx vy vz vu vv =>
    ⟨vx, vy, vz, vu, vv, nx, ny, nz⟩
  if face = 0 then
    [appendVert x y (z+1) u (v+vSize), appendVert (x+1) y (z+1) (u+uSize) (v+vSize),
     appendVert (x+1) (y+1) (z+1) (u+uSize) v, appendVert x y (z+1) u (v+vSize),
     appendVert (x+1) (y+1) (z+1) (u+uSize) v, appendVert x (y+1) (z+1) u v]
  else if face = 1 then
    [appendVert (x+1) y z u (v+vSize), appendVert x y z (u+uSize) (v+vSize),
     appendVert x (y+1) z (u+uSize) v, appendVert (x+1) y z u (v+vSize),
     appendVert x (y+1) z (u+uSize) v, appendVert (x+1) (y+1) z u v]
  else if face = 2 then
    [appendVert (x+1) y (z+1) u (v+vSize), appendVert (x+1) y z (u+uSize) (v+vSize),
     appendVert (x+1) (y+1) z (u+uSize) v, appendVert (x+1) y (z+1) u (v+vSize),
     appendVert (x+1) (y+1) z (u+uSize) v, appendVert (x+1) (y+1) (z+1) (u+uSize) v]
  else if face = 3 then
    [appendVert x y z u (v+vSize), appendVert x y (z+1) (u+uSize) (v+vSize),
     appendVert x (y+1) (z+1) (u+uSize) v, appendVert x y z u (v+vSize),
     appendVert x (y+1) (z+1) (u+uSize) v, appendVert x (y+1) z u v]
  else if face = 4 then
    [appendVert x (y+1) (z+1) u (v+vSize), appendVert (x+1) (y+1) (z+1) (u+uSize) (v+vSize),
     appendVert (x+1) (y+1) z (u+uSize) v, appendVert x (y+1) (z+1) u (v+vSize),
     appendVert (x+1) (y+1) z (u+uSize) v, appendVert x (y+1) z u v]
  else if face = 5 then
    [appendVert x y z u (v+vSize), appendVert (x+1) y z (u+uSize) (v+vSize),
     appendVert (x+1) y (z+1) (u+uSize) v, appendVert x y z u (v+vSize),
     appendVert (x+1) y (z+1) (u+uSize) v, appendVert x y (z+1) u v]
  else []

/-- The `isTransparent` closure of `Chunk.generateMesh`, with the four cached
lateral neighbor chunks (`nLeft` = (X−1,Z), `nRight` = (X+1,Z),
`nBack` = (X,Z−1), `nFront` = (X,Z+1)) passed explicitly. -/
def isTransparentAt (c : Chunk) (nLeft nRight nBack nFront : Option Chunk)
    (x y z : Int) : Bool :=
  if y < 0 ∨ ChunkHeight ≤ y then true
  else if 0 ≤ x ∧ x < ChunkSize ∧ 0 ≤ z ∧ z < ChunkSize then
    c.Blocks x y z == BlockAir
  else if x < 0 then
    match nLeft with
    | none => true
    | some n => n.Blocks (ChunkSize - 1) y z == BlockAir
  else if ChunkSize ≤ x then
    match nRight with
    | none => true
    | some n => n.Blocks 0 y z == BlockAir
  else if z < 0 then
    match nBack with
    | none => true
    | some n => n.Blocks x y (ChunkSize - 1) == BlockAir
  else if ChunkSize ≤ z then
    match nFront with
    | none => true
    | some n => n.Blocks x y 0 == BlockAir
  else true

/-- The six face checks of `generateMesh`'s inner loop for one voxel:
for a non-Air block, each of the 6 face-adjacent positions is tested for
transparency and an exposed face appends a 6-vertex quad. -/
def voxelVerts (c : Chunk) (nLeft nRight nBack nFront : Option Chunk)
    (x y z : Int) : List Vertex :=
  let blockType := c.Blocks x y z
  if blockType = BlockAir then []
  else
    let wx : ℚ := (c.X * ChunkSize + x : Int)
    let wy : ℚ := (y : Int)
    let wz : ℚ := (c.Z * ChunkSize + z : Int)
    (if isTransparentAt c nLeft nRight nBack nFront x y (z+1) then addFace wx wy wz 0 blockType else [])
    ++ (if isTransparentAt c nLeft nRight nBack nFront x y (z-1) then addFace wx wy wz 1 blockType else [])
    ++ (if isTransparentAt c nLeft nRight nBack nFront (x+1) y z then addFace wx wy wz 2 blockType else [])
    ++ (if isTransparentAt c nLeft nRight nBack nFront (x-1) y z then addFace wx wy wz 3 blockType else [])
    ++ (if isTransparentAt c nLeft nRight nBack nFront x (y+1) z then addFace wx wy wz 4 blockType else [])
    ++ (if isTransparentAt c nLeft nRight nBack nFront x (y-1) z then addFace wx wy wz 5 blockType else [])

/-- The vertex buffer built by `Chunk.generateMesh`: the x/y/z triple loop over
the chunk's voxels (x outer, then y, then z, each ascending), concatenating the
emitted quads. -/
def meshVertices (c : Chunk) (nLeft nRight nBack nFront : Option Chunk) : List Vertex :=
  (List.range 16).flatMap fun x =>
    (List.range 256).flatMap fun y =>
      (List.range 16).flatMap fun z =>
        voxelVerts c nLeft nRight nBack nFront (x : Int) (y : Int) (z : Int)

/-- `Chunk.generateMesh(w)` as a function on the chunk: resolves the four
lateral neighbors from the store, rebuilds the vertex buffer, and — exactly as
the Go code, which does `if len(vertices) == 0 { return }` — leaves the chunk
(and in particular any previously stored mesh) untouched when the new buffer
is empty; otherwise replaces the mesh. -/
def generateMeshFor (w : World) (c : Chunk) : Chunk :=
  let nLeft := w.chunks (c.X - 1, c.Z)
  let nRight := w.chunks (c.X + 1, c.Z)
  let nBack := w.chunks (c.X, c.Z - 1)
  let nFront := w.chunks (c.X, c.Z + 1)
  let vertices := meshVertices c nLeft nRight nBack nFront
  if vertices.length = 0 then c
  else { c with Mesh := some vertices }

/-! ## world.go: terrain generation -/

/-- Go's `int(f)` conversion for a float: truncation toward zero. -/
def goInt (q : ℚ) : Int := Int.tdiv q.num (q.den : Int)

/-- The flat-plains amplitude band (`ruggedness ≤ 0.2`):
`amplitude = 2.0 + ((ruggedness + 1.0) * 8.0)`. -/
def flatAmp (r : ℚ) : ℚ := 2 + (r + 1) * 8

/-- The hilly amplitude band (`0.2 < ruggedness ≤ 0.6`):
`factor = min((r−0.2)/0.4, 1); amplitude = 10 + factor*30`. -/
def hillyAmp (r : ℚ) : ℚ := 10 + min ((r - 1/5) / (2/5)) 1 * 30

/-- The extreme-mountain amplitude band (`ruggedness > 0.6`):
`factor = min((r−0.6)/0.4, 1); amplitude = 40 + factor*100`. -/
def mountainAmp (r : ℚ) : ℚ := 40 + min ((r - 3/5) / (2/5)) 1 * 100

/-- The amplitude selection of `generateChunk` (world.go lines 66–76). -/
def amplitudeOf (r : ℚ) : ℚ :=
  if r > 3/5 then mountainAmp r
  else if r > 1/5 then hillyAmp r
  else flatAmp r

/-- The per-voxel block assignment of `generateChunk` for world column
`(worldX, worldZ)` at height `y`: the noise sampling, height computation with
clamping to `[2, ChunkHeight−5]`, and the y-dependent material choice. -/
def columnBlock (noise : ℚ → ℚ → ℚ) (worldX worldZ : ℚ) (y : Int) : BlockType :=
  let ruggedness := noise (worldX * (4/1000)) (worldZ * (4/1000))
  let jitter := noise (worldX * (1/2)) (worldZ * (1/2))
  let mountainShape := |noise (worldX * (15/1000)) (worldZ * (15/1000))| ^ 2
  let baseElevation := noise (worldX * (5/1000)) (worldZ * (5/1000))
  let amplitude := amplitudeOf ruggedness
  let baseLevel : ℚ := 25
  let height0 := baseLevel + baseElevation * 20 + mountainShape * amplitude
    + noise (worldX * (1/10)) (worldZ * (1/10)) * 2
  let height1 := if height0 < 2 then 2 else height0
  let height := if height1 > 256 - 5 then 256 - 5 else height1
  let heightInt := goInt height
  if y = 0 then BlockStone
  else if y > heightInt then BlockAir
  else if y = heightInt then
    (if y > 90 + goInt (jitter * 11) then BlockSnow
     else if y > 72 + goInt (jitter * 7) then BlockStone
     else if y ≤ 33 then BlockSand
     else BlockGrass)
  else if y > heightInt - 4 then
    (if y > 80 then BlockStone
     else if heightInt ≤ 33 then BlockSand
     else BlockDirt)
  else BlockStone

/-- `World.generateChunk(chunkX, chunkZ)`: a fresh chunk (no mesh yet) whose
voxel at local `(x, y, z)` is the generated block for absolute column
`(chunkX*ChunkSize + x, chunkZ*ChunkSize + z)`.  The function is total in the
indices; the program only reads `0 ≤ x,z < 16`, `0 ≤ y < 256`, the bounds the
Go loops fill. -/
def generateChunk (noise : ℚ → ℚ → ℚ) (chunkX chunkZ : Int) : Chunk :=
  { X := chunkX, Z := chunkZ, Mesh := none,
    Blocks := fun x y z =>
      columnBlock noise ((chunkX * ChunkSize + x : Int) : ℚ)
        ((chunkZ * ChunkSize + z : Int) : ℚ) y }

/-! ## world.go: block access -/

/-- The chunk-coordinate computation shared by `GetBlock` and `SetBlock`
(world.go lines 143–155 and 170–182): Go truncating division, then the
negative-remainder correction. -/
def chunkCoord (a : Int) : Int :=
  if Int.tmod a ChunkSize < 0 then Int.tdiv a ChunkSize - 1 else Int.tdiv a ChunkSize

/-- The local-coordinate computation shared by `GetBlock` and `SetBlock`. -/
def localCoord (a : Int) : Int :=
  if Int.tmod a ChunkSize < 0 then Int.tmod a ChunkSize + ChunkSize
  else Int.tmod a ChunkSize

/-- `World.GetBlock(x, y, z)`. -/
def getBlock (w : World) (x y z : Int) : BlockType :=
  if y < 0 ∨ ChunkHeight ≤ y then BlockAir
  else
    match w.chunks (chunkCoord x, chunkCoord z) with
    | none => BlockAir
    | some chunk => chunk.Blocks (localCoord x) y (localCoord z)

/-- Point update of a chunk's voxel array:
`chunk.Blocks[localX][y][localZ].Type = blockType`. -/
def updateBlocks (f : Int → Int → Int → BlockType) (lx ly lz : Int)
    (t : BlockType) : Int → Int → Int → BlockType :=
  fun a b c => if a = lx ∧ b = ly ∧ c = lz then t else f a b c

/-- Store insertion / overwrite at one key (the effect of writing through the
`*Chunk` pointer held in the map, or of `w.chunks[key] = chunk`). -/
def insertChunk (w : World) (k : Int × Int) (c : Chunk) : World :=
  { w with chunks := fun k2 => if k2 = k then some c else w.chunks k2 }

/-- Re-mesh the chunk stored at `k`, if any (the
`if neighbor, ok := w.chunks[...]; ok { neighbor.generateMesh(w) }` pattern). -/
def remeshAt (w : World) (k : Int × Int) : World :=
  match w.chunks k with
  | none => w
  | some c => insertChunk w k (generateMeshFor w c)

/-- The owner-chunk part of `SetBlock`, after the in-range and presence checks
have passed with owning chunk `c`: mutate the voxel, then regenerate the
owner's mesh (the store already holds the mutated chunk when `generateMesh`
runs, since Go mutates through the map's pointer). -/
def setBlockOwner (w : World) (c : Chunk) (x y z : Int) (t : BlockType) : World :=
  let k := (chunkCoord x, chunkCoord z)
  let c1 := { c with Blocks := updateBlocks c.Blocks (localCoord x) y (localCoord z) t }
  let w1 := insertChunk w k c1
  insertChunk w1 k (generateMeshFor w1 c1)

/-- `SetBlock` after the X-boundary neighbor update
(`localX == 0` → west neighbor, `else if localX == ChunkSize−1` → east). -/
def setBlockX (w : World) (c : Chunk) (x y z : Int) (t : BlockType) : World :=
  let w2 := setBlockOwner w c x y z t
  if localCoord x = 0 then remeshAt w2 (chunkCoord x - 1, chunkCoord z)
  else if localCoord x = ChunkSize - 1 then remeshAt w2 (chunkCoord x + 1, chunkCoord z)
  else w2

/-- `SetBlock` after the Z-boundary neighbor update
(`localZ == 0` → back neighbor, `else if localZ == ChunkSize−1` → front). -/
def setBlockZ (w : World) (c : Chunk) (x y z : Int) (t : BlockType) : World :=
  let w3 := setBlockX w c x y z t
  if localCoord z = 0 then remeshAt w3 (chunkCoord x, chunkCoord z - 1)
  else if localCoord z = ChunkSize - 1 then remeshAt w3 (chunkCoord x, chunkCoord z + 1)
  else w3

/-- `World.SetBlock(x, y, z, blockType)`: no-op when `y` is out of range or the
owning chunk is absent; otherwise mutate, re-mesh the owner, then re-mesh the
X-boundary neighbor (if any) and the Z-boundary neighbor (if any). -/
def setBlock (w : World) (x y z : Int) (t : BlockType) : World :=
  if y < 0 ∨ ChunkHeight ≤ y then w
  else
    match w.chunks (chunkCoord x, chunkCoord z) with
    | none => w
    | some c => setBlockZ w c x y z t

/-! ## world.go: chunk streaming (UpdateChunks) -/

/-- The observer chunk coordinate of `UpdateChunks`:
`int(math.Floor(float64(p))) / ChunkSize` — floor to an integer, then Go's
truncating integer division. -/
def playerChunk (p : ℚ) : Int := Int.tdiv (Int.floor p) ChunkSize

/-- The generation window of `UpdateChunks`, in the Go loop order: `x` from
`pcx−RenderDistance` to `pcx+RenderDistance` (outer), `z` likewise (inner);
33 = 2*RenderDistance + 1 values each. -/
def windowList (pcx pcz : Int) : List (Int × Int) :=
  (List.range 33).flatMap fun i =>
    (List.range 33).map fun j => (pcx - RenderDistance + i, pcz - RenderDistance + j)

/-- The generation loop of `UpdateChunks` over the remaining window
coordinates: a missing chunk is generated, inserted, and meshed (against the
store as it stands at that point of the loop).  The second component logs, in
order, the coordinates for which `generateChunk` was invoked. -/
def updateChunksGen (w : World) (ks : List (Int × Int)) : World × List (Int × Int) :=
  match ks with
  | [] => (w, [])
  | k :: rest =>
    match w.chunks k with
    | some _ => updateChunksGen w rest
    | none =>
      let c := generateChunk w.noise k.1 k.2
      let w1 := insertChunk w k c
      let w2 := insertChunk w1 k (generateMeshFor w1 c)
      let rec2 := updateChunksGen w2 rest
      (rec2.1, k :: rec2.2)

/-- The eviction test of `UpdateChunks`: the Go code computes
`math.Sqrt(float64(dx*dx + dz*dz)) > float64(RenderDistance+2)`, which on
integer inputs is equivalent to `dx² + dz² > (RenderDistance+2)²`
(`sqrt_gt_18_iff` below proves the equivalence over ℝ). -/
def evicts (dx dz : Int) : Bool :=
  decide ((RenderDistance + 2) * (RenderDistance + 2) < dx * dx + dz * dz)

/-- `World.UpdateChunks(playerX, playerZ)`: generate all missing chunks of the
square window, then remove every stored chunk whose Euclidean chunk-grid
distance from the observer chunk exceeds `RenderDistance + 2` (the Go code
collects the keys and deletes them after the scan; the net effect on the map
is this pointwise filter). -/
def updateChunks (w : World) (px pz : ℚ) : World :=
  let pcx := playerChunk px
  let pcz := playerChunk pz
  let w1 := (updateChunksGen w (windowList pcx pcz)).1
  { w1 with chunks := fun k => if evicts (k.1 - pcx) (k.2 - pcz) then none else w1.chunks k }

/-- The coordinates `UpdateChunks(px, pz)` generates (calls `generateChunk`
for) when run on world `w`. -/
def updateChunksLog (w : World) (px pz : ℚ) : List (Int × Int) :=
  (updateChunksGen w (windowList (playerChunk px) (playerChunk pz))).2

/-- Triple sum over the voxel index ranges of a chunk, in the loop order of
`generateMesh`; used to state vertex-count facts about `meshVertices`. -/
def voxelCount (f : Nat → Nat → Nat → Nat) : Nat :=
  ((List.range 16).map fun x =>
    ((List.range 256).map fun y =>
      ((List.range 16).map fun z => f x y z).sum).sum).sum

/-! ## Concrete instances used to instantiate the theorems -/

/-- A trivial noise function (any fixed noise stands for one fixed seed). -/
def noise0 : ℚ → ℚ → ℚ := fun _ _ => 0

/-- A world with an empty chunk store. -/
def wEmpty : World := ⟨noise0, fun _ => none⟩

/-- A chunk at grid position `(cx, cz)` whose every voxel is Stone. -/
def solidChunk (cx cz : Int) : Chunk := ⟨cx, cz, fun _ _ _ => BlockStone, none⟩

/-- A world holding exactly one all-Stone chunk at (0,0). -/
def wOne : World :=
  ⟨noise0, fun k => if k = (0, 0) then some (solidChunk 0 0) else none⟩

/-- A world holding an all-Stone chunk at (0,0) and its four lateral
neighbors, all fully solid. -/
def wFive : World :=
  ⟨noise0, fun k =>
    if k = (0, 0) then some (solidChunk 0 0)
    else if k = (-1, 0) then some (solidChunk (-1) 0)
    else if k = (1, 0) then some (solidChunk 1 0)
    else if k = (0, -1) then some (solidChunk 0 (-1))
    else if k = (0, 1) then some (solidChunk 0 1)
    else none⟩

/-- A world holding exactly one all-Stone chunk at (−1,−1). -/
def wNeg : World :=
  ⟨noise0, fun k => if k = (-1, -1) then some (solidChunk (-1) (-1)) else none⟩

/-- A world whose store already holds a chunk at every coordinate of the
(0,0)-centred generation window. -/
def wWin : World :=
  ⟨noise0, fun k =>
    if -16 ≤ k.1 ∧ k.1 ≤ 16 ∧ -16 ≤ k.2 ∧ k.2 ≤ 16 then some (solidChunk k.1 k.2)
    else none⟩

/-- A chunk that is Air everywhere except a single Stone voxel at local
(0,0,0). -/
def bugChunk : Chunk :=
  ⟨0, 0, fun x y z => if x = 0 ∧ y = 0 ∧ z = 0 then BlockStone else BlockAir, none⟩

/-- The mesh the single-block chunk gets when meshed with no neighbors
present (36 vertices: all six faces of the lone block are exposed). -/
def bugMeshL : List Vertex := meshVertices bugChunk none none none none

/-- A world holding only `bugChunk`, already meshed — the state just before
the `SetBlock` call that removes the last solid block. -/
def bugWorld : World :=
  ⟨noise0, fun k => if k = (0, 0) then some { bugChunk with Mesh := some bugMeshL } else none⟩

/-- The chunk state `SetBlock(0,0,0,Air)` leaves at (0,0): voxel cleared, but
the mesh still the stale 36-vertex buffer (generateMesh early-returns on an
empty vertex list without clearing the old mesh). -/
def bugChunkMutated : Chunk :=
  { bugChunk with
    Blocks := updateBlocks bugChunk.Blocks 0 0 0 BlockAir
    Mesh := some bugMeshL }

/-! ## Coordinate resolution (GetBlock / SetBlock) -/

theorem tmod16_bounds (a : Int) : -16 < Int.tmod a 16 ∧ Int.tmod a 16 < 16 := by
  rcases le_or_lt 0 a with h | h
  · have h1 := Int.tmod_nonneg 16 h
    have h2 := Int.tmod_lt_of_pos a (b := 16) (by norm_num)
    omega
  · have hn : (0 : Int) ≤ -a := by omega
    have h1 := Int.tmod_nonneg 16 hn
    have h2 := Int.tmod_lt_of_pos (-a) (b := 16) (by norm_num)
    have d1 := Int.tmod_def a 16
    have d2 := Int.tmod_def (-a) 16
    have d3 := Int.neg_tdiv a 16
    omega

theorem coord_char (a : Int) :
    16 * chunkCoord a + localCoord a = a ∧ 0 ≤ localCoord a ∧ localCoord a < 16 := by
  have h := Int.tdiv_add_tmod a 16
  have hb := tmod16_bounds a
  simp only [chunkCoord, localCoord, ChunkSize]
  split <;> omega

/-- C7: `GetBlock` resolves world coordinates to the owning chunk by floor
division (`Int.fdiv`) with local indices in `[0, ChunkSize)` — the truncating
division plus negative-remainder correction implements floor semantics — and
in particular `GetBlock(−1, 5, −1)` reads chunk `(−1,−1)` at local
`(15, 5, 15)`. -/
theorem getBlock_floor_semantics :
    (∀ a : Int, chunkCoord a = Int.fdiv a ChunkSize ∧
      localCoord a = a - ChunkSize * Int.fdiv a ChunkSize ∧
      0 ≤ localCoord a ∧ localCoord a < ChunkSize) ∧
    (chunkCoord (-1) = -1 ∧ localCoord (-1) = 15) ∧
    (∀ (w : World) (c : Chunk), w.chunks (-1, -1) = some c →
      getBlock w (-1) 5 (-1) = c.Blocks 15 5 15) := by
  have key : ∀ a : Int, chunkCoord a = Int.fdiv a ChunkSize ∧
      localCoord a = a - ChunkSize * Int.fdiv a ChunkSize ∧
      0 ≤ localCoord a ∧ localCoord a < ChunkSize := by
    intro a
    have h := coord_char a
    have hf := Int.fdiv_eq_ediv a (by norm_num : (0 : Int) ≤ 16)
    simp only [ChunkSize]
    rw [hf]
    omega
  refine ⟨key, ⟨by decide, by decide⟩, ?_⟩
  intro w c hc
  have h1 : chunkCoord (-1) = -1 := by decide
  have h2 : localCoord (-1) = 15 := by decide
  simp only [getBlock, h1, h2, hc]
  norm_num

theorem getBlock_floor_semantics_witness :
    wNeg.chunks (-1, -1) = some (solidChunk (-1) (-1)) ∧
    getBlock wNeg (-1) 5 (-1) = (solidChunk (-1) (-1)).Blocks 15 5 15 :=
  ⟨rfl, getBlock_floor_semantics.2.2 wNeg (solidChunk (-1) (-1)) rfl⟩

/-! ## Observer chunk coordinate (UpdateChunks) -/

theorem tdiv16_small (a : Int) (h1 : -16 < a) (h2 : a < 16) : Int.tdiv a 16 = 0 := by
  rcases le_or_lt 0 a with h | h
  · have := Int.tdiv_eq_ediv h (by norm_num : (0 : Int) ≤ 16)
    rw [this]
    omega
  · have hn : (0 : Int) ≤ -a := by omega
    have he := Int.tdiv_eq_ediv hn (by norm_num : (0 : Int) ≤ 16)
    have hd := Int.neg_tdiv a 16
    rw [hd] at he
    have : (-a) / 16 = 0 := by omega
    omega

/-- C8 counterexample: the claim says an observer at world x ∈ [−ChunkSize, 0)
is assigned chunk coordinate −1; but `UpdateChunks` computes
`int(Floor(x)) / ChunkSize` with Go's truncating division, and at x = −8 that
yields chunk 0, not −1. -/
theorem playerChunk_truncation_counterexample :
    playerChunk (-8) = 0 ∧ (0 : Int) ≠ -1 := by
  constructor
  · have hf : Int.floor (-8 : ℚ) = -8 := by norm_num
    simp only [playerChunk, hf, ChunkSize]
    decide
  · decide

/-- C8 (amended): `UpdateChunks` computes the observer chunk as
`int(Floor(p))` divided by ChunkSize with truncation toward zero, not floor
division: floor semantics holds for p ≥ 0, but every p ∈ [−15, 0) is assigned
chunk 0 (not −1); only p ∈ [−16, −15) reaches chunk −1. -/
theorem playerChunk_truncates :
    (∀ p : ℚ, 0 ≤ p → playerChunk p = Int.fdiv (Int.floor p) ChunkSize) ∧
    (∀ p : ℚ, -15 ≤ p → p < 0 → playerChunk p = 0) ∧
    (∀ p : ℚ, -16 ≤ p → p < -15 → playerChunk p = -1) := by
  refine ⟨?_, ?_, ?_⟩
  · intro p hp
    have hf : (0 : Int) ≤ Int.floor p := Int.floor_nonneg.mpr hp
    simp only [playerChunk, ChunkSize]
    rw [Int.tdiv_eq_ediv hf (by norm_num : (0 : Int) ≤ 16),
      Int.fdiv_eq_ediv _ (by norm_num : (0 : Int) ≤ 16)]
  · intro p h1 h2
    have hlb : (-15 : Int) ≤ Int.floor p := by
      rw [Int.le_floor]; exact_mod_cast h1
    have hub : Int.floor p < 0 := by
      rw [Int.floor_lt]; exact_mod_cast h2
    simp only [playerChunk, ChunkSize]
    exact tdiv16_small _ (by omega) (by omega)
  · intro p h1 h2
    have hfl : Int.floor p = -16 := by
      rw [Int.floor_eq_iff]
      constructor
      · exact_mod_cast h1
      · push_cast
        linarith
    simp only [playerChunk, ChunkSize, hfl]
    decide

theorem playerChunk_truncates_witness :
    ((0 : ℚ) ≤ 0 ∧ playerChunk 0 = Int.fdiv (Int.floor (0 : ℚ)) ChunkSize) ∧
    ((-15 : ℚ) ≤ -8 ∧ (-8 : ℚ) < 0 ∧ playerChunk (-8) = 0) ∧
    ((-16 : ℚ) ≤ -16 ∧ (-16 : ℚ) < -15 ∧ playerChunk (-16) = -1) :=
  ⟨⟨le_refl 0, playerChunk_truncates.1 0 (le_refl 0)⟩,
   ⟨by norm_num, by norm_num, playerChunk_truncates.2.1 (-8) (by norm_num) (by norm_num)⟩,
   ⟨le_refl _, by norm_num, playerChunk_truncates.2.2 (-16) (le_refl _) (by norm_num)⟩⟩

/-! ## Amplitude banding (generateChunk) -/

/-- C3 counterexample: at the band edge `ruggedness = 0.2` the flat-plains
formula yields `2 + (0.2+1)·8 = 11.6` while the hilly formula yields
`10 + min(0,1)·30 = 10`: the two adjacent bands disagree at their shared edge,
so the amplitude is not continuous there (the code's `amplitudeOf` takes the
flat branch at exactly 0.2 and jumps down as ruggedness crosses the edge). -/
theorem amplitude_jump_at_band_edge :
    flatAmp (1/5) = 58/5 ∧ hillyAmp (1/5) = 10 ∧ flatAmp (1/5) ≠ hillyAmp (1/5) ∧
    amplitudeOf (1/5) = 58/5 ∧ amplitudeOf (201/1000) = 403/40 := by
  refine ⟨?_, ?_, ?_, ?_, ?_⟩
  · norm_num [flatAmp]
  · norm_num [hillyAmp, min_def]
  · norm_num [flatAmp, hillyAmp, min_def]
  · norm_num [amplitudeOf, flatAmp]
  · norm_num [amplitudeOf, hillyAmp, min_def]

/-- C3 (amended): the amplitude is piecewise linear in the ruggedness signal
with the three bands as written, and the hilly and extreme-mountain formulas
agree (value 40) at the 0.6 band edge; but at the 0.2 band edge the
flat-plains formula gives 11.6 while the hilly formula gives 10 — a jump of
8/5, so the amplitude is *not* continuous across that edge. -/
theorem amplitude_bands :
    (∀ r : ℚ, r ≤ 1/5 → amplitudeOf r = flatAmp r) ∧
    (∀ r : ℚ, 1/5 < r → r ≤ 3/5 → amplitudeOf r = hillyAmp r) ∧
    (∀ r : ℚ, 3/5 < r → amplitudeOf r = mountainAmp r) ∧
    hillyAmp (3/5) = mountainAmp (3/5) ∧
    flatAmp (1/5) - hillyAmp (1/5) = 8/5 := by
  refine ⟨?_, ?_, ?_, ?_, ?_⟩
  · intro r h
    rw [amplitudeOf, if_neg (by linarith), if_neg (by linarith)]
  · intro r h1 h2
    rw [amplitudeOf, if_neg (by linarith), if_pos h1]
  · intro r h
    rw [amplitudeOf, if_pos h]
  · norm_num [hillyAmp, mountainAmp, min_def]
  · norm_num [flatAmp, hillyAmp, min_def]

theorem amplitude_bands_witness :
    ((0 : ℚ) ≤ 1/5 ∧ amplitudeOf 0 = flatAmp 0) ∧
    ((1/5 : ℚ) < 1/2 ∧ (1/2 : ℚ) ≤ 3/5 ∧ amplitudeOf (1/2) = hillyAmp (1/2)) ∧
    ((3/5 : ℚ) < 1 ∧ amplitudeOf 1 = mountainAmp 1) :=
  ⟨⟨by norm_num, amplitude_bands.1 0 (by norm_num)⟩,
   ⟨by norm_num, by norm_num, amplitude_bands.2.1 (1/2) (by norm_num) (by norm_num)⟩,
   ⟨by norm_num, amplitude_bands.2.2.1 1 (by norm_num)⟩⟩

/-! ## Store and meshing basics -/

theorem insertChunk_self (w : World) (k : Int × Int) (c : Chunk) :
    (insertChunk w k c).chunks k = some c := by
  simp [insertChunk]

theorem insertChunk_ne (w : World) (k k2 : Int × Int) (c : Chunk) (h : k2 ≠ k) :
    (insertChunk w k c).chunks k2 = w.chunks k2 := by
  simp [insertChunk, h]

theorem insertChunk_noise (w : World) (k : Int × Int) (c : Chunk) :
    (insertChunk w k c).noise = w.noise := rfl

theorem generateMeshFor_Blocks (w : World) (c : Chunk) :
    (generateMeshFor w c).Blocks = c.Blocks := by
  simp only [generateMeshFor]
  split <;> rfl

theorem generateMeshFor_X (w : World) (c : Chunk) : (generateMeshFor w c).X = c.X := by
  simp only [generateMeshFor]
  split <;> rfl

theorem generateMeshFor_Z (w : World) (c : Chunk) : (generateMeshFor w c).Z = c.Z := by
  simp only [generateMeshFor]
  split <;> rfl

theorem remeshAt_ne (w : World) (k k2 : Int × Int) (h : k2 ≠ k) :
    (remeshAt w k).chunks k2 = w.chunks k2 := by
  unfold remeshAt
  cases hk : w.chunks k with
  | none => rfl
  | some c => exact insertChunk_ne _ _ _ _ h

theorem remeshAt_blocks (w : World) (k k2 : Int × Int) :
    ((remeshAt w k).chunks k2).map Chunk.Blocks = (w.chunks k2).map Chunk.Blocks := by
  unfold remeshAt
  cases hk : w.chunks k with
  | none => rfl
  | some c =>
    by_cases h : k2 = k
    · subst h
      rw [insertChunk_self, hk]
      simp [generateMeshFor_Blocks]
    · rw [insertChunk_ne _ _ _ _ h]

/-! ## SetBlock: owner mutation and the GetBlock round trip -/

theorem setBlock_eq_setBlockZ (w : World) (c : Chunk) (x y z : Int) (t : BlockType)
    (hy : ¬(y < 0 ∨ ChunkHeight ≤ y))
    (hc : w.chunks (chunkCoord x, chunkCoord z) = some c) :
    setBlock w x y z t = setBlockZ w c x y z t := by
  simp only [setBlock, hc]
  rw [if_neg hy]

theorem setBlockOwner_owner (w : World) (c : Chunk) (x y z : Int) (t : BlockType) :
    ((setBlockOwner w c x y z t).chunks (chunkCoord x, chunkCoord z)).map Chunk.Blocks
      = some (updateBlocks c.Blocks (localCoord x) y (localCoord z) t) := by
  simp only [setBlockOwner]
  rw [insertChunk_self]
  simp [generateMeshFor_Blocks]

theorem setBlockX_owner (w : World) (c : Chunk) (x y z : Int) (t : BlockType) :
    (setBlockX w c x y z t).chunks (chunkCoord x, chunkCoord z)
      = (setBlockOwner w c x y z t).chunks (chunkCoord x, chunkCoord z) := by
  simp only [setBlockX]
  split
  · exact remeshAt_ne _ _ _ (by simp only [ne_eq, Prod.mk.injEq, not_and]; intro h; omega)
  · split
    · exact remeshAt_ne _ _ _ (by simp only [ne_eq, Prod.mk.injEq, not_and]; intro h; omega)
    · rfl

theorem setBlockZ_owner (w : World) (c : Chunk) (x y z : Int) (t : BlockType) :
    (setBlockZ w c x y z t).chunks (chunkCoord x, chunkCoord z)
      = (setBlockX w c x y z t).chunks (chunkCoord x, chunkCoord z) := by
  simp only [setBlockZ]
  split
  · exact remeshAt_ne _ _ _ (by simp only [ne_eq, Prod.mk.injEq]; intro h; omega)
  · split
    · exact remeshAt_ne _ _ _ (by simp only [ne_eq, Prod.mk.injEq]; intro h; omega)
    · rfl

theorem setBlock_owner_blocks (w : World) (c : Chunk) (x y z : Int) (t : BlockType)
    (hy : ¬(y < 0 ∨ ChunkHeight ≤ y))
    (hc : w.chunks (chunkCoord x, chunkCoord z) = some c) :
    ((setBlock w x y z t).chunks (chunkCoord x, chunkCoord z)).map Chunk.Blocks
      = some (updateBlocks c.Blocks (localCoord x) y (localCoord z) t) := by
  rw [setBlock_eq_setBlockZ w c x y z t hy hc, setBlockZ_owner, setBlockX_owner,
    setBlockOwner_owner]

/-- C2 (amended): for every world coordinate, `SetBlock(x,y,z,T)` followed by
`GetBlock(x,y,z)` returns T whenever y ∈ [0, ChunkHeight) *and the owning
chunk is present in the store* (`SetBlock` is a silent no-op on an absent
chunk, so the claim as stated fails there — see the counterexample); and for
y outside [0, ChunkHeight), `GetBlock` returns Air on every world, hence
regardless of prior `SetBlock` calls. -/
theorem setBlock_getBlock_roundtrip :
    (∀ (w : World) (x y z : Int) (t : BlockType) (c : Chunk),
      0 ≤ y → y < ChunkHeight →
      w.chunks (chunkCoord x, chunkCoord z) = some c →
      getBlock (setBlock w x y z t) x y z = t) ∧
    (∀ (w : World) (x y z : Int), y < 0 ∨ ChunkHeight ≤ y →
      getBlock w x y z = BlockAir) := by
  constructor
  · intro w x y z t c hy1 hy2 hc
    have hy : ¬(y < 0 ∨ ChunkHeight ≤ y) := by
      simp only [ChunkHeight] at *
      omega
    have hmap := setBlock_owner_blocks w c x y z t hy hc
    simp only [getBlock]
    rw [if_neg hy]
    cases hpost : (setBlock w x y z t).chunks (chunkCoord x, chunkCoord z) with
    | none => rw [hpost] at hmap; simp at hmap
    | some ch =>
      rw [hpost] at hmap
      have hb : ch.Blocks = updateBlocks c.Blocks (localCoord x) y (localCoord z) t :=
        Option.some.inj hmap
      simp [hb, updateBlocks]
  · intro w x y z hy
    simp only [getBlock]
    rw [if_pos hy]

theorem setBlock_getBlock_roundtrip_witness :
    ((0 : Int) ≤ 5 ∧ (5 : Int) < ChunkHeight ∧
      wOne.chunks (chunkCoord 3, chunkCoord 7) = some (solidChunk 0 0) ∧
      getBlock (setBlock wOne 3 5 7 BlockDirt) 3 5 7 = BlockDirt) ∧
    ((300 : Int) < 0 ∨ ChunkHeight ≤ (300 : Int)) ∧
    getBlock wOne 0 300 0 = BlockAir :=
  ⟨⟨by decide, by decide, rfl,
    setBlock_getBlock_roundtrip.1 wOne 3 5 7 BlockDirt (solidChunk 0 0)
      (by decide) (by decide) rfl⟩,
   Or.inr (by decide),
   setBlock_getBlock_roundtrip.2 wOne 0 300 0 (Or.inr (by decide))⟩

/-- C2 counterexample: on a world whose store does not hold the owning chunk
(here the empty store), `SetBlock(0,0,0,Stone)` is a no-op and the subsequent
`GetBlock(0,0,0)` returns Air, not Stone, although y = 0 is in range — the
claim as stated (for *every* world coordinate, with no presence proviso)
is false. -/
theorem setBlock_roundtrip_counterexample :
    getBlock (setBlock wEmpty 0 0 0 BlockStone) 0 0 0 = BlockAir ∧
    BlockAir ≠ BlockStone := by
  constructor
  · rfl
  · decide

/-! ## Mesh vertex counting -/

theorem sum_map_congr {α : Type} (l : List α) (f g : α → Nat)
    (h : ∀ a ∈ l, f a = g a) : (l.map f).sum = (l.map g).sum := by
  rw [List.map_congr_left h]

theorem sum_map_constNat {α : Type} (l : List α) (c : Nat) :
    (l.map fun _ => c).sum = l.length * c := by
  induction l with
  | nil => simp
  | cons a l ih => simp [ih, Nat.succ_mul, Nat.add_comm]

theorem meshVertices_length (c : Chunk) (nLeft nRight nBack nFront : Option Chunk) :
    (meshVertices c nLeft nRight nBack nFront).length =
      voxelCount fun x y z =>
        (voxelVerts c nLeft nRight nBack nFront (x : Int) (y : Int) (z : Int)).length := by
  rw [meshVertices, voxelCount, List.length_flatMap]
  refine sum_map_congr _ _ _ fun x _ => ?_
  simp only [Function.comp]
  rw [List.length_flatMap]
  refine sum_map_congr _ _ _ fun y _ => ?_
  simp only [Function.comp]
  rw [List.length_flatMap]
  rfl

theorem addFace_length (x y z : ℚ) (f : Nat) (t : BlockType) (h : f < 6) :
    (addFace x y z f t).length = 6 := by
  interval_cases f <;> rfl

theorem voxelCount_congr (f g : Nat → Nat → Nat → Nat)
    (h : ∀ x, x < 16 → ∀ y, y < 256 → ∀ z, z < 16 → f x y z = g x y z) :
    voxelCount f = voxelCount g := by
  rw [voxelCount, voxelCount]
  refine sum_map_congr _ _ _ fun x hx => ?_
  refine sum_map_congr _ _ _ fun y hy => ?_
  refine sum_map_congr _ _ _ fun z hz => ?_
  exact h x (List.mem_range.mp hx) y (List.mem_range.mp hy) z (List.mem_range.mp hz)

theorem voxelCount_const_y (g : Nat → Nat) :
    voxelCount (fun _ y _ => g y) = 16 * ((List.range 256).map fun y => 16 * g y).sum := by
  rw [voxelCount]
  simp only [sum_map_constNat, List.length_range]

theorem isTransparentAt_above (c : Chunk) (nL nR nB nF : Option Chunk)
    (x y z : Int) (h : 256 ≤ y) :
    isTransparentAt c nL nR nB nF x y z = true := by
  simp only [isTransparentAt, ChunkHeight]
  rw [if_pos (Or.inr h)]

theorem isTransparentAt_below (c : Chunk) (nL nR nB nF : Option Chunk)
    (x y z : Int) (h : y < 0) :
    isTransparentAt c nL nR nB nF x y z = true := by
  simp only [isTransparentAt, ChunkHeight]
  rw [if_pos (Or.inl h)]

theorem isTransparentAt_inChunk (c : Chunk) (nL nR nB nF : Option Chunk)
    (x y z : Int) (hx : 0 ≤ x) (hx2 : x < 16) (hy : 0 ≤ y) (hy2 : y < 256)
    (hz : 0 ≤ z) (hz2 : z < 16) :
    isTransparentAt c nL nR nB nF x y z = (c.Blocks x y z == BlockAir) := by
  simp only [isTransparentAt, ChunkHeight, ChunkSize]
  rw [if_neg (by omega), if_pos ⟨hx, hx2, hz, hz2⟩]

theorem isTransparentAt_left (c n : Chunk) (nR nB nF : Option Chunk)
    (x y z : Int) (hx : x < 0) (hy : 0 ≤ y) (hy2 : y < 256) :
    isTransparentAt c (some n) nR nB nF x y z = (n.Blocks 15 y z == BlockAir) := by
  simp only [isTransparentAt, ChunkHeight, ChunkSize]
  rw [if_neg (by omega), if_neg (by omega), if_pos hx]
  norm_num

theorem isTransparentAt_right (c n : Chunk) (nL nB nF : Option Chunk)
    (x y z : Int) (hx : 16 ≤ x) (hy : 0 ≤ y) (hy2 : y < 256) :
    isTransparentAt c nL (some n) nB nF x y z = (n.Blocks 0 y z == BlockAir) := by
  simp only [isTransparentAt, ChunkHeight, ChunkSize]
  rw [if_neg (by omega), if_neg (by omega), if_neg (by omega), if_pos hx]

theorem isTransparentAt_back (c n : Chunk) (nL nR nF : Option Chunk)
    (x y z : Int) (hx : 0 ≤ x) (hx2 : x < 16) (hz : z < 0) (hy : 0 ≤ y) (hy2 : y < 256) :
    isTransparentAt c nL nR (some n) nF x y z = (n.Blocks x y 15 == BlockAir) := by
  simp only [isTransparentAt, ChunkHeight, ChunkSize]
  rw [if_neg (by omega), if_neg (by omega), if_neg (by omega), if_neg (by omega), if_pos hz]
  norm_num

theorem isTransparentAt_front (c n : Chunk) (nL nR nB : Option Chunk)
    (x y z : Int) (hx : 0 ≤ x) (hx2 : x < 16) (hz : 16 ≤ z) (hy : 0 ≤ y) (hy2 : y < 256) :
    isTransparentAt c nL nR nB (some n) x y z = (n.Blocks x y 0 == BlockAir) := by
  simp only [isTransparentAt, ChunkHeight, ChunkSize]
  rw [if_neg (by omega), if_neg (by omega), if_neg (by omega), if_neg (by omega),
    if_neg (by omega), if_pos hz]

theorem beq_air_false (a : BlockType) (h : a ≠ BlockAir) : (a == BlockAir) = false :=
  beq_eq_false_iff_ne.mpr h

theorem addFace_length0 (x y z : ℚ) (t : BlockType) : (addFace x y z 0 t).length = 6 := rfl

theorem addFace_length1 (x y z : ℚ) (t : BlockType) : (addFace x y z 1 t).length = 6 := rfl

theorem addFace_length2 (x y z : ℚ) (t : BlockType) : (addFace x y z 2 t).length = 6 := rfl

theorem addFace_length3 (x y z : ℚ) (t : BlockType) : (addFace x y z 3 t).length = 6 := rfl

theorem addFace_length4 (x y z : ℚ) (t : BlockType) : (addFace x y z 4 t).length = 6 := rfl

theorem addFace_length5 (x y z : ℚ) (t : BlockType) : (addFace x y z 5 t).length = 6 := rfl

theorem voxelVerts_solid (c cL cR cB cF : Chunk) (T : BlockType) (hT : T ≠ BlockAir)
    (hc : ∀ x y z : Int, 0 ≤ x → x < 16 → 0 ≤ y → y < 256 → 0 ≤ z → z < 16 →
      c.Blocks x y z = T)
    (hL : ∀ y z : Int, 0 ≤ y → y < 256 → 0 ≤ z → z < 16 → cL.Blocks 15 y z ≠ BlockAir)
    (hR : ∀ y z : Int, 0 ≤ y → y < 256 → 0 ≤ z → z < 16 → cR.Blocks 0 y z ≠ BlockAir)
    (hB : ∀ x y : Int, 0 ≤ x → x < 16 → 0 ≤ y → y < 256 → cB.Blocks x y 15 ≠ BlockAir)
    (hF : ∀ x y : Int, 0 ≤ x → x < 16 → 0 ≤ y → y < 256 → cF.Blocks x y 0 ≠ BlockAir)
    (x y z : Int) (hx : 0 ≤ x) (hx2 : x < 16) (hy : 0 ≤ y) (hy2 : y < 256)
    (hz : 0 ≤ z) (hz2 : z < 16) :
    (voxelVerts c (some cL) (some cR) (some cB) (some cF) x y z).length
      = (if y = 0 then 6 else 0) + (if y = 255 then 6 else 0) := by
  have hFr : isTransparentAt c (some cL) (some cR) (some cB) (some cF) x y (z+1) = false := by
    by_cases hzz : z + 1 < 16
    · rw [isTransparentAt_inChunk c _ _ _ _ x y (z+1) hx hx2 hy hy2 (by omega) hzz]
      exact beq_air_false _ (by rw [hc x y (z+1) hx hx2 hy hy2 (by omega) hzz]; exact hT)
    · rw [isTransparentAt_front c cF _ _ _ x y (z+1) hx hx2 (by omega) hy hy2]
      exact beq_air_false _ (hF x y hx hx2 hy hy2)
  have hBk : isTransparentAt c (some cL) (some cR) (some cB) (some cF) x y (z-1) = false := by
    by_cases hzz : z - 1 < 0
    · rw [isTransparentAt_back c cB _ _ _ x y (z-1) hx hx2 hzz hy hy2]
      exact beq_air_false _ (hB x y hx hx2 hy hy2)
    · rw [isTransparentAt_inChunk c _ _ _ _ x y (z-1) hx hx2 hy hy2 (by omega) (by omega)]
      exact beq_air_false _ (by rw [hc x y (z-1) hx hx2 hy hy2 (by omega) (by omega)]; exact hT)
  have hRt : isTransparentAt c (some cL) (some cR) (some cB) (some cF) (x+1) y z = false := by
    by_cases hxx : x + 1 < 16
    · rw [isTransparentAt_inChunk c _ _ _ _ (x+1) y z (by omega) hxx hy hy2 hz hz2]
      exact beq_air_false _ (by rw [hc (x+1) y z (by omega) hxx hy hy2 hz hz2]; exact hT)
    · rw [isTransparentAt_right c cR _ _ _ (x+1) y z (by omega) hy hy2]
      exact beq_air_false _ (hR y z hy hy2 hz hz2)
  have hLt : isTransparentAt c (some cL) (some cR) (some cB) (some cF) (x-1) y z = false := by
    by_cases hxx : x - 1 < 0
    · rw [isTransparentAt_left c cL _ _ _ (x-1) y z hxx hy hy2]
      exact beq_air_false _ (hL y z hy hy2 hz hz2)
    · rw [isTransparentAt_inChunk c _ _ _ _ (x-1) y z (by omega) (by omega) hy hy2 hz hz2]
      exact beq_air_false _ (by rw [hc (x-1) y z (by omega) (by omega) hy hy2 hz hz2]; exact hT)
  simp only [voxelVerts]
  rw [hc x y z hx hx2 hy hy2 hz hz2, if_neg hT]
  rcases eq_or_ne y 255 with rfl | hy255
  · have hTp : isTransparentAt c (some cL) (some cR) (some cB) (some cF) x 256 z = true :=
      isTransparentAt_above c _ _ _ _ x 256 z (by omega)
    have hBt : isTransparentAt c (some cL) (some cR) (some cB) (some cF) x 254 z = false := by
      rw [isTransparentAt_inChunk c _ _ _ _ x 254 z hx hx2 (by omega) (by omega) hz hz2]
      exact beq_air_false _ (by rw [hc x 254 z hx hx2 (by omega) (by omega) hz hz2]; exact hT)
    simp [hFr, hBk, hRt, hLt, hTp, hBt, addFace_length4]
  · rcases eq_or_ne y 0 with rfl | hy0
    · have hTp : isTransparentAt c (some cL) (some cR) (some cB) (some cF) x 1 z = false := by
        rw [isTransparentAt_inChunk c _ _ _ _ x 1 z hx hx2 (by omega) (by omega) hz hz2]
        exact beq_air_false _ (by rw [hc x 1 z hx hx2 (by omega) (by omega) hz hz2]; exact hT)
      have hBt : isTransparentAt c (some cL) (some cR) (some cB) (some cF) x (-1) z = true :=
        isTransparentAt_below c _ _ _ _ x (-1) z (by omega)
      simp [hFr, hBk, hRt, hLt, hTp, hBt, addFace_length5]
    · have hTp : isTransparentAt c (some cL) (some cR) (some cB) (some cF) x (y+1) z = false := by
        rw [isTransparentAt_inChunk c _ _ _ _ x (y+1) z hx hx2 (by omega) (by omega) hz hz2]
        exact beq_air_false _ (by rw [hc x (y+1) z hx hx2 (by omega) (by omega) hz hz2]; exact hT)
      have hBt : isTransparentAt c (some cL) (some cR) (some cB) (some cF) x (y-1) z = false := by
        rw [isTransparentAt_inChunk c _ _ _ _ x (y-1) z hx hx2 (by omega) (by omega) hz hz2]
        exact beq_air_false _ (by rw [hc x (y-1) z hx hx2 (by omega) (by omega) hz hz2]; exact hT)
      simp [hFr, hBk, hRt, hLt, hTp, hBt, hy0, hy255]

theorem meshVertices_solid_count (c cL cR cB cF : Chunk) (T : BlockType)
    (hT : T ≠ BlockAir)
    (hc : ∀ x y z : Int, 0 ≤ x → x < 16 → 0 ≤ y → y < 256 → 0 ≤ z → z < 16 →
      c.Blocks x y z = T)
    (hL : ∀ y z : Int, 0 ≤ y → y < 256 → 0 ≤ z → z < 16 → cL.Blocks 15 y z ≠ BlockAir)
    (hR : ∀ y z : Int, 0 ≤ y → y < 256 → 0 ≤ z → z < 16 → cR.Blocks 0 y z ≠ BlockAir)
    (hB : ∀ x y : Int, 0 ≤ x → x < 16 → 0 ≤ y → y < 256 → cB.Blocks x y 15 ≠ BlockAir)
    (hF : ∀ x y : Int, 0 ≤ x → x < 16 → 0 ≤ y → y < 256 → cF.Blocks x y 0 ≠ BlockAir) :
    (meshVertices c (some cL) (some cR) (some cB) (some cF)).length = 3072 := by
  rw [meshVertices_length]
  have hcong := voxelCount_congr
    (fun x y z => (voxelVerts c (some cL) (some cR) (some cB) (some cF)
      (x : Int) (y : Int) (z : Int)).length)
    (fun _ y _ => (if y = 0 then 6 else 0) + (if y = 255 then 6 else 0))
    (by
      intro x hx y hy z hz
      dsimp only
      rw [voxelVerts_solid c cL cR cB cF T hT hc hL hR hB hF (x : Int) (y : Int) (z : Int)
        (by omega) (by omega) (by omega) (by omega) (by omega) (by omega)]
      rcases eq_or_ne y 0 with rfl | h0
      · norm_num
      · rcases eq_or_ne y 255 with rfl | h255
        · norm_num
        · rw [if_neg h0, if_neg h255, if_neg (by omega : ¬((y : Int) = 0)),
            if_neg (by omega : ¬((y : Int) = 255))])
  rw [hcong, voxelCount_const_y (fun y => (if y = 0 then 6 else 0) + (if y = 255 then 6 else 0))]
  set_option maxRecDepth 4000 in decide

/-- C4 (amended): a chunk uniformly filled with one solid block type whose four
lateral neighbors are present and fully solid meshes to exactly
`2 × ChunkSize × ChunkSize × 6` vertices (3072): the top faces at y = 255
*and* the bottom faces at y = 0 are exposed, because `isTransparent` treats
y < 0 (just like y ≥ ChunkHeight) as transparent, so the bottom of the world
is meshed too; all lateral faces are occluded by the solid neighbors. -/
theorem solid_chunk_mesh_count (w : World) (c cL cR cB cF : Chunk) (T : BlockType)
    (hT : T ≠ BlockAir)
    (hc : ∀ x y z : Int, 0 ≤ x → x < 16 → 0 ≤ y → y < 256 → 0 ≤ z → z < 16 →
      c.Blocks x y z = T)
    (hLk : w.chunks (c.X - 1, c.Z) = some cL)
    (hL : ∀ y z : Int, 0 ≤ y → y < 256 → 0 ≤ z → z < 16 → cL.Blocks 15 y z ≠ BlockAir)
    (hRk : w.chunks (c.X + 1, c.Z) = some cR)
    (hR : ∀ y z : Int, 0 ≤ y → y < 256 → 0 ≤ z → z < 16 → cR.Blocks 0 y z ≠ BlockAir)
    (hBk : w.chunks (c.X, c.Z - 1) = some cB)
    (hB : ∀ x y : Int, 0 ≤ x → x < 16 → 0 ≤ y → y < 256 → cB.Blocks x y 15 ≠ BlockAir)
    (hFk : w.chunks (c.X, c.Z + 1) = some cF)
    (hF : ∀ x y : Int, 0 ≤ x → x < 16 → 0 ≤ y → y < 256 → cF.Blocks x y 0 ≠ BlockAir) :
    (generateMeshFor w c).Mesh.map List.length = some (2 * (16 * 16 * 6)) := by
  have hlen := meshVertices_solid_count c cL cR cB cF T hT hc hL hR hB hF
  simp only [generateMeshFor, hLk, hRk, hBk, hFk]
  rw [if_neg (by rw [hlen]; norm_num)]
  simp only [Option.map_some']
  rw [hlen]

theorem solid_chunk_mesh_count_witness :
    wFive.chunks ((solidChunk 0 0).X - 1, (solidChunk 0 0).Z) = some (solidChunk (-1) 0) ∧
    wFive.chunks ((solidChunk 0 0).X + 1, (solidChunk 0 0).Z) = some (solidChunk 1 0) ∧
    wFive.chunks ((solidChunk 0 0).X, (solidChunk 0 0).Z - 1) = some (solidChunk 0 (-1)) ∧
    wFive.chunks ((solidChunk 0 0).X, (solidChunk 0 0).Z + 1) = some (solidChunk 0 1) ∧
    (generateMeshFor wFive (solidChunk 0 0)).Mesh.map List.length = some (2 * (16 * 16 * 6)) :=
  ⟨rfl, rfl, rfl, rfl,
    solid_chunk_mesh_count wFive (solidChunk 0 0) (solidChunk (-1) 0) (solidChunk 1 0)
      (solidChunk 0 (-1)) (solidChunk 0 1) BlockStone (by decide)
      (fun _ _ _ _ _ _ _ _ _ => rfl)
      rfl (fun _ _ _ _ _ _ => (by decide : BlockStone ≠ BlockAir))
      rfl (fun _ _ _ _ _ _ => (by decide : BlockStone ≠ BlockAir))
      rfl (fun _ _ _ _ _ _ => (by decide : BlockStone ≠ BlockAir))
      rfl (fun _ _ _ _ _ _ => (by decide : BlockStone ≠ BlockAir))⟩

/-- C4 counterexample: for the concrete fully-solid chunk at (0,0) with its
four fully-solid neighbors, the mesh has 3072 vertices, not the claimed
`ChunkSize × ChunkSize × 6 = 1536`: the bottom faces at y = 0 are also
exposed (y = −1 counts as transparent), so the claim's vertex count is off by
a factor of two. -/
theorem solid_chunk_mesh_count_counterexample :
    (generateMeshFor wFive (solidChunk 0 0)).Mesh.map List.length = some 3072 ∧
    ¬ (generateMeshFor wFive (solidChunk 0 0)).Mesh.map List.length = some (16 * 16 * 6) := by
  have hlen := meshVertices_solid_count (solidChunk 0 0) (solidChunk (-1) 0) (solidChunk 1 0)
    (solidChunk 0 (-1)) (solidChunk 0 1) BlockStone (by decide)
    (fun _ _ _ _ _ _ _ _ _ => rfl)
    (fun _ _ _ _ _ _ => (by decide : BlockStone ≠ BlockAir))
    (fun _ _ _ _ _ _ => (by decide : BlockStone ≠ BlockAir))
    (fun _ _ _ _ _ _ => (by decide : BlockStone ≠ BlockAir))
    (fun _ _ _ _ _ _ => (by decide : BlockStone ≠ BlockAir))
  have hm : (generateMeshFor wFive (solidChunk 0 0)).Mesh.map List.length = some 3072 := by
    have hLk : wFive.chunks ((solidChunk 0 0).X - 1, (solidChunk 0 0).Z)
        = some (solidChunk (-1) 0) := rfl
    have hRk : wFive.chunks ((solidChunk 0 0).X + 1, (solidChunk 0 0).Z)
        = some (solidChunk 1 0) := rfl
    have hBk : wFive.chunks ((solidChunk 0 0).X, (solidChunk 0 0).Z - 1)
        = some (solidChunk 0 (-1)) := rfl
    have hFk : wFive.chunks ((solidChunk 0 0).X, (solidChunk 0 0).Z + 1)
        = some (solidChunk 0 1) := rfl
    simp only [generateMeshFor, hLk, hRk, hBk, hFk]
    rw [if_neg (by rw [hlen]; norm_num)]
    simp only [Option.map_some']
    rw [hlen]
  refine ⟨hm, ?_⟩
  rw [hm]
  intro hcontra
  have := Option.some.inj hcontra
  norm_num at this

theorem meshVertices_air (c : Chunk) (nL nR nB nF : Option Chunk)
    (hc : ∀ x y z : Int, 0 ≤ x → x < 16 → 0 ≤ y → y < 256 → 0 ≤ z → z < 16 →
      c.Blocks x y z = BlockAir) :
    meshVertices c nL nR nB nF = [] := by
  rw [← List.length_eq_zero, meshVertices_length]
  have hcong := voxelCount_congr
    (fun x y z => (voxelVerts c nL nR nB nF (x : Int) (y : Int) (z : Int)).length)
    (fun _ _ _ => 0)
    (by
      intro x hx y hy z hz
      dsimp only
      simp only [voxelVerts]
      rw [hc (x : Int) (y : Int) (z : Int) (by omega) (by omega) (by omega) (by omega)
        (by omega) (by omega)]
      simp)
  rw [hcong, voxelCount_const_y (fun _ => 0)]
  set_option maxRecDepth 4000 in decide

theorem bugMeshL_length : bugMeshL.length = 36 := by
  rw [bugMeshL, meshVertices_length]
  have hcong := voxelCount_congr
    (fun x y z => (voxelVerts bugChunk none none none none (x : Int) (y : Int) (z : Int)).length)
    (fun x y z => if x = 0 ∧ y = 0 ∧ z = 0 then 36 else 0)
    (by
      intro x hx y hy z hz
      dsimp only
      by_cases h : x = 0 ∧ y = 0 ∧ z = 0
      · obtain ⟨rfl, rfl, rfl⟩ := h
        rw [if_pos ⟨rfl, rfl, rfl⟩]
        rfl
      · rw [if_neg h]
        simp only [voxelVerts]
        have hair : bugChunk.Blocks (x : Int) (y : Int) (z : Int) = BlockAir := by
          simp only [bugChunk]
          rw [if_neg]
          intro hcast
          exact h ⟨by exact_mod_cast hcast.1, by exact_mod_cast hcast.2.1,
            by exact_mod_cast hcast.2.2⟩
        rw [hair]
        simp)
  rw [hcong]
  set_option maxRecDepth 8000 in decide

/-- C6 (code bug): `SetBlock` does *not* always leave the mutated chunk's mesh
reflecting the new voxel state.  `generateMesh` early-returns when the new
vertex list is empty (`if len(vertices) == 0 { return }`) without touching the
previously stored mesh, so clearing the last solid block of a chunk leaves the
stale 36-vertex mesh in the store although the correct mesh for the current
voxel contents is empty.  Here: `bugWorld` holds one chunk whose only solid
voxel is (0,0,0), meshed (36 vertices); after `SetBlock(0,0,0,Air)` the stored
chunk is `bugChunkMutated`, whose mesh is still the stale 36-vertex buffer
while `meshVertices` on its (all-Air) contents is empty. -/
theorem setBlock_stale_empty_mesh :
    (setBlock bugWorld 0 0 0 BlockAir).chunks (0, 0) = some bugChunkMutated ∧
    bugChunkMutated.Mesh = some bugMeshL ∧
    bugMeshL.length = 36 ∧
    meshVertices bugChunkMutated none none none none = [] := by
  have hcoord : chunkCoord 0 = 0 := by decide
  have hloc : localCoord 0 = 0 := by decide
  have hair : ∀ x y z : Int, 0 ≤ x → x < 16 → 0 ≤ y → y < 256 → 0 ≤ z → z < 16 →
      bugChunkMutated.Blocks x y z = BlockAir := by
    intro x y z _ _ _ _ _ _
    by_cases h : x = 0 ∧ y = 0 ∧ z = 0
    · simp [bugChunkMutated, updateBlocks, h]
    · simp [bugChunkMutated, updateBlocks, bugChunk, h]
  have hnil : ∀ nL nR nB nF : Option Chunk, meshVertices bugChunkMutated nL nR nB nF = [] :=
    fun nL nR nB nF => meshVertices_air bugChunkMutated nL nR nB nF hair
  have hgm : ∀ w : World, generateMeshFor w bugChunkMutated = bugChunkMutated := by
    intro w
    simp only [generateMeshFor, hnil]
    simp
  have hc0 : bugWorld.chunks (chunkCoord 0, chunkCoord 0)
      = some { bugChunk with Mesh := some bugMeshL } := by
    rw [hcoord]
    rfl
  have hc1 : ({ bugChunk with Mesh := some bugMeshL } : Chunk).Blocks = bugChunk.Blocks := rfl
  have howner : setBlockOwner bugWorld { bugChunk with Mesh := some bugMeshL } 0 0 0 BlockAir
      = insertChunk (insertChunk bugWorld (0, 0) bugChunkMutated) (0, 0) bugChunkMutated := by
    simp only [setBlockOwner, hcoord, hloc, hc1]
    have hcm : ({ bugChunk with Mesh := some bugMeshL } : Chunk).X = 0 := rfl
    have heq : ({ { bugChunk with Mesh := some bugMeshL } with
        Blocks := updateBlocks bugChunk.Blocks 0 0 0 BlockAir } : Chunk) = bugChunkMutated := rfl
    rw [heq, hgm]
  have hx : setBlockX bugWorld { bugChunk with Mesh := some bugMeshL } 0 0 0 BlockAir
      = insertChunk (insertChunk bugWorld (0, 0) bugChunkMutated) (0, 0) bugChunkMutated := by
    simp only [setBlockX, howner, hcoord, hloc]
    rw [if_pos (by trivial)]
    have hnone : (insertChunk (insertChunk bugWorld (0, 0) bugChunkMutated) (0, 0)
        bugChunkMutated).chunks (0 - 1, 0) = none := by
      rw [insertChunk_ne _ _ _ _ (by decide), insertChunk_ne _ _ _ _ (by decide)]
      rfl
    simp only [remeshAt, hnone]
  have hz : setBlockZ bugWorld { bugChunk with Mesh := some bugMeshL } 0 0 0 BlockAir
      = insertChunk (insertChunk bugWorld (0, 0) bugChunkMutated) (0, 0) bugChunkMutated := by
    simp only [setBlockZ, hx, hcoord, hloc]
    rw [if_pos (by trivial)]
    have hnone : (insertChunk (insertChunk bugWorld (0, 0) bugChunkMutated) (0, 0)
        bugChunkMutated).chunks (0, 0 - 1) = none := by
      rw [insertChunk_ne _ _ _ _ (by decide), insertChunk_ne _ _ _ _ (by decide)]
      rfl
    simp only [remeshAt, hnone]
  have hpost : setBlock bugWorld 0 0 0 BlockAir
      = insertChunk (insertChunk bugWorld (0, 0) bugChunkMutated) (0, 0) bugChunkMutated := by
    rw [setBlock_eq_setBlockZ bugWorld { bugChunk with Mesh := some bugMeshL } 0 0 0 BlockAir
      (by decide) hc0, hz]
  refine ⟨?_, rfl, bugMeshL_length, hnil none none none none⟩
  rw [hpost, insertChunk_self]

/-! ## SetBlock frame conditions -/

theorem setBlockOwner_ne (w : World) (c : Chunk) (x y z : Int) (t : BlockType)
    (k : Int × Int) (h : k ≠ (chunkCoord x, chunkCoord z)) :
    (setBlockOwner w c x y z t).chunks k = w.chunks k := by
  simp only [setBlockOwner]
  rw [insertChunk_ne _ _ _ _ h, insertChunk_ne _ _ _ _ h]

theorem setBlockX_ne (w : World) (c : Chunk) (x y z : Int) (t : BlockType)
    (k : Int × Int) (h : k ≠ (chunkCoord x, chunkCoord z))
    (hw : k ≠ (chunkCoord x - 1, chunkCoord z)) (he : k ≠ (chunkCoord x + 1, chunkCoord z)) :
    (setBlockX w c x y z t).chunks k = w.chunks k := by
  simp only [setBlockX]
  split
  · rw [remeshAt_ne _ _ _ hw]
    exact setBlockOwner_ne w c x y z t k h
  · split
    · rw [remeshAt_ne _ _ _ he]
      exact setBlockOwner_ne w c x y z t k h
    · exact setBlockOwner_ne w c x y z t k h

theorem setBlockZ_ne (w : World) (c : Chunk) (x y z : Int) (t : BlockType)
    (k : Int × Int) (h : k ≠ (chunkCoord x, chunkCoord z))
    (hw : k ≠ (chunkCoord x - 1, chunkCoord z)) (he : k ≠ (chunkCoord x + 1, chunkCoord z))
    (hb : k ≠ (chunkCoord x, chunkCoord z - 1)) (hf : k ≠ (chunkCoord x, chunkCoord z + 1)) :
    (setBlockZ w c x y z t).chunks k = w.chunks k := by
  simp only [setBlockZ]
  split
  · rw [remeshAt_ne _ _ _ hb]
    exact setBlockX_ne w c x y z t k h hw he
  · split
    · rw [remeshAt_ne _ _ _ hf]
      exact setBlockX_ne w c x y z t k h hw he
    · exact setBlockX_ne w c x y z t k h hw he

theorem setBlockZ_row (w : World) (c : Chunk) (x y z : Int) (t : BlockType) (a : Int) :
    (setBlockZ w c x y z t).chunks (a, chunkCoord z)
      = (setBlockX w c x y z t).chunks (a, chunkCoord z) := by
  simp only [setBlockZ]
  split
  · exact remeshAt_ne _ _ _ (by simp only [ne_eq, Prod.mk.injEq, not_and]; intro h; omega)
  · split
    · exact remeshAt_ne _ _ _ (by simp only [ne_eq, Prod.mk.injEq, not_and]; intro h; omega)
    · rfl

theorem setBlockX_blocks (w : World) (c : Chunk) (x y z : Int) (t : BlockType)
    (k : Int × Int) (h : k ≠ (chunkCoord x, chunkCoord z)) :
    ((setBlockX w c x y z t).chunks k).map Chunk.Blocks
      = (w.chunks k).map Chunk.Blocks := by
  simp only [setBlockX]
  split
  · rw [remeshAt_blocks, setBlockOwner_ne w c x y z t k h]
  · split
    · rw [remeshAt_blocks, setBlockOwner_ne w c x y z t k h]
    · rw [setBlockOwner_ne w c x y z t k h]

theorem setBlockZ_blocks (w : World) (c : Chunk) (x y z : Int) (t : BlockType)
    (k : Int × Int) (h : k ≠ (chunkCoord x, chunkCoord z)) :
    ((setBlockZ w c x y z t).chunks k).map Chunk.Blocks
      = (w.chunks k).map Chunk.Blocks := by
  simp only [setBlockZ]
  split
  · rw [remeshAt_blocks, setBlockX_blocks w c x y z t k h]
  · split
    · rw [remeshAt_blocks, setBlockX_blocks w c x y z t k h]
    · rw [setBlockX_blocks w c x y z t k h]

/-- C9: a `SetBlock` that mutates a voxel re-meshes the owning chunk, and
re-meshes an edge-adjacent neighbor exactly when the voxel lies on that
lateral boundary (localX = 0 → west, localX = 15 → east, localZ = 0 → back,
localZ = 15 → front) and the neighbor is present; every other store entry is
left exactly as it was, and no chunk other than the owner has its voxel
contents changed. -/
theorem setBlock_frame (w : World) (c : Chunk) (x y z : Int) (t : BlockType)
    (hy1 : 0 ≤ y) (hy2 : y < ChunkHeight)
    (hc : w.chunks (chunkCoord x, chunkCoord z) = some c) :
    (∀ k : Int × Int, k ≠ (chunkCoord x, chunkCoord z) →
      k ≠ (chunkCoord x - 1, chunkCoord z) → k ≠ (chunkCoord x + 1, chunkCoord z) →
      k ≠ (chunkCoord x, chunkCoord z - 1) → k ≠ (chunkCoord x, chunkCoord z + 1) →
      (setBlock w x y z t).chunks k = w.chunks k) ∧
    (∀ k : Int × Int, k ≠ (chunkCoord x, chunkCoord z) →
      ((setBlock w x y z t).chunks k).map Chunk.Blocks = (w.chunks k).map Chunk.Blocks) ∧
    (((setBlock w x y z t).chunks (chunkCoord x, chunkCoord z)).map Chunk.Blocks
      = some (updateBlocks c.Blocks (localCoord x) y (localCoord z) t)) ∧
    (localCoord x = 0 → ∀ n : Chunk, w.chunks (chunkCoord x - 1, chunkCoord z) = some n →
      (setBlock w x y z t).chunks (chunkCoord x - 1, chunkCoord z)
        = some (generateMeshFor (setBlockOwner w c x y z t) n)) ∧
    (localCoord x = ChunkSize - 1 →
      ∀ n : Chunk, w.chunks (chunkCoord x + 1, chunkCoord z) = some n →
      (setBlock w x y z t).chunks (chunkCoord x + 1, chunkCoord z)
        = some (generateMeshFor (setBlockOwner w c x y z t) n)) ∧
    (localCoord z = 0 → ∀ n : Chunk, w.chunks (chunkCoord x, chunkCoord z - 1) = some n →
      (setBlock w x y z t).chunks (chunkCoord x, chunkCoord z - 1)
        = some (generateMeshFor (setBlockX w c x y z t) n)) ∧
    (localCoord z = ChunkSize - 1 →
      ∀ n : Chunk, w.chunks (chunkCoord x, chunkCoord z + 1) = some n →
      (setBlock w x y z t).chunks (chunkCoord x, chunkCoord z + 1)
        = some (generateMeshFor (setBlockX w c x y z t) n)) ∧
    (localCoord x ≠ 0 → (setBlock w x y z t).chunks (chunkCoord x - 1, chunkCoord z)
        = w.chunks (chunkCoord x - 1, chunkCoord z)) ∧
    (localCoord x ≠ ChunkSize - 1 →
      (setBlock w x y z t).chunks (chunkCoord x + 1, chunkCoord z)
        = w.chunks (chunkCoord x + 1, chunkCoord z)) ∧
    (localCoord z ≠ 0 → (setBlock w x y z t).chunks (chunkCoord x, chunkCoord z - 1)
        = w.chunks (chunkCoord x, chunkCoord z - 1)) ∧
    (localCoord z ≠ ChunkSize - 1 →
      (setBlock w x y z t).chunks (chunkCoord x, chunkCoord z + 1)
        = w.chunks (chunkCoord x, chunkCoord z + 1)) := by
  have hy : ¬(y < 0 ∨ ChunkHeight ≤ y) := by
    simp only [ChunkHeight] at *
    omega
  have hsb := setBlock_eq_setBlockZ w c x y z t hy hc
  refine ⟨?_, ?_, ?_, ?_, ?_, ?_, ?_, ?_, ?_, ?_, ?_⟩
  · intro k h hw he hb hf
    rw [hsb]
    exact setBlockZ_ne w c x y z t k h hw he hb hf
  · intro k h
    rw [hsb]
    exact setBlockZ_blocks w c x y z t k h
  · exact setBlock_owner_blocks w c x y z t hy hc
  · intro hlx n hn
    rw [hsb, setBlockZ_row]
    simp only [setBlockX]
    rw [if_pos hlx]
    have hn2 : (setBlockOwner w c x y z t).chunks (chunkCoord x - 1, chunkCoord z) = some n := by
      rw [setBlockOwner_ne w c x y z t _
        (by simp only [ne_eq, Prod.mk.injEq, not_and]; intro h; omega)]
      exact hn
    simp only [remeshAt, hn2]
    rw [insertChunk_self]
  · intro hlx n hn
    have hlx0 : localCoord x ≠ 0 := by
      rw [hlx]
      decide
    rw [hsb, setBlockZ_row]
    simp only [setBlockX]
    rw [if_neg hlx0, if_pos hlx]
    have hn2 : (setBlockOwner w c x y z t).chunks (chunkCoord x + 1, chunkCoord z) = some n := by
      rw [setBlockOwner_ne w c x y z t _
        (by simp only [ne_eq, Prod.mk.injEq, not_and]; intro h; omega)]
      exact hn
    simp only [remeshAt, hn2]
    rw [insertChunk_self]
  · intro hlz n hn
    rw [hsb]
    simp only [setBlockZ]
    rw [if_pos hlz]
    have hn3 : (setBlockX w c x y z t).chunks (chunkCoord x, chunkCoord z - 1) = some n := by
      rw [setBlockX_ne w c x y z t _
        (by simp only [ne_eq, Prod.mk.injEq]; intro h; omega)
        (by simp only [ne_eq, Prod.mk.injEq]; intro h; omega)
        (by simp only [ne_eq, Prod.mk.injEq]; intro h; omega)]
      exact hn
    simp only [remeshAt, hn3]
    rw [insertChunk_self]
  · intro hlz n hn
    have hlz0 : localCoord z ≠ 0 := by
      rw [hlz]
      decide
    rw [hsb]
    simp only [setBlockZ]
    rw [if_neg hlz0, if_pos hlz]
    have hn3 : (setBlockX w c x y z t).chunks (chunkCoord x, chunkCoord z + 1) = some n := by
      rw [setBlockX_ne w c x y z t _
        (by simp only [ne_eq, Prod.mk.injEq]; intro h; omega)
        (by simp only [ne_eq, Prod.mk.injEq]; intro h; omega)
        (by simp only [ne_eq, Prod.mk.injEq]; intro h; omega)]
      exact hn
    simp only [remeshAt, hn3]
    rw [insertChunk_self]
  · intro hlx
    rw [hsb, setBlockZ_row]
    simp only [setBlockX]
    rw [if_neg hlx]
    split
    · rw [remeshAt_ne _ _ _ (by simp only [ne_eq, Prod.mk.injEq, not_and]; intro h; omega)]
      exact setBlockOwner_ne w c x y z t _
        (by simp only [ne_eq, Prod.mk.injEq, not_and]; intro h; omega)
    · exact setBlockOwner_ne w c x y z t _
        (by simp only [ne_eq, Prod.mk.injEq, not_and]; intro h; omega)
  · intro hlx
    rw [hsb, setBlockZ_row]
    simp only [setBlockX]
    split
    · rw [remeshAt_ne _ _ _ (by simp only [ne_eq, Prod.mk.injEq, not_and]; intro h; omega)]
      exact setBlockOwner_ne w c x y z t _
        (by simp only [ne_eq, Prod.mk.injEq, not_and]; intro h; omega)
    · exact setBlockOwner_ne w c x y z t _
        (by simp only [ne_eq, Prod.mk.injEq, not_and]; intro h; omega)
  · intro hlz
    rw [hsb]
    simp only [setBlockZ]
    rw [if_neg hlz]
    split
    · rw [remeshAt_ne _ _ _ (by simp only [ne_eq, Prod.mk.injEq]; intro h; omega)]
      exact setBlockX_ne w c x y z t _
        (by simp only [ne_eq, Prod.mk.injEq]; intro h; omega)
        (by simp only [ne_eq, Prod.mk.injEq]; intro h; omega)
        (by simp only [ne_eq, Prod.mk.injEq]; intro h; omega)
    · exact setBlockX_ne w c x y z t _
        (by simp only [ne_eq, Prod.mk.injEq]; intro h; omega)
        (by simp only [ne_eq, Prod.mk.injEq]; intro h; omega)
        (by simp only [ne_eq, Prod.mk.injEq]; intro h; omega)
  · intro hlz
    rw [hsb]
    simp only [setBlockZ]
    split
    · rw [remeshAt_ne _ _ _ (by simp only [ne_eq, Prod.mk.injEq]; intro h; omega)]
      exact setBlockX_ne w c x y z t _
        (by simp only [ne_eq, Prod.mk.injEq]; intro h; omega)
        (by simp only [ne_eq, Prod.mk.injEq]; intro h; omega)
        (by simp only [ne_eq, Prod.mk.injEq]; intro h; omega)
    · exact setBlockX_ne w c x y z t _
        (by simp only [ne_eq, Prod.mk.injEq]; intro h; omega)
        (by simp only [ne_eq, Prod.mk.injEq]; intro h; omega)
        (by simp only [ne_eq, Prod.mk.injEq]; intro h; omega)

theorem setBlock_frame_witness :
    (0 : Int) ≤ 5 ∧ (5 : Int) < ChunkHeight ∧
    wFive.chunks (chunkCoord 0, chunkCoord 3) = some (solidChunk 0 0) ∧
    ((setBlock wFive 0 5 3 BlockAir).chunks (chunkCoord 0, chunkCoord 3)).map Chunk.Blocks
      = some (updateBlocks (solidChunk 0 0).Blocks (localCoord 0) 5 (localCoord 3) BlockAir) :=
  ⟨by decide, by decide, rfl,
    (setBlock_frame wFive (solidChunk 0 0) 0 5 3 BlockAir (by decide) (by decide) rfl).2.2.1⟩

/-! ## UpdateChunks: generation fold and eviction -/

theorem updateChunksGen_noise (l : List (Int × Int)) :
    ∀ w : World, (updateChunksGen w l).1.noise = w.noise := by
  induction l with
  | nil => intro w; rfl
  | cons j rest ih =>
    intro w
    rw [updateChunksGen]
    cases hj : w.chunks j with
    | some c => exact ih w
    | none =>
      simp only
      exact ih _

theorem updateChunksGen_present (l : List (Int × Int)) (k : Int × Int) (c : Chunk) :
    ∀ w : World, w.chunks k = some c → (updateChunksGen w l).1.chunks k = some c := by
  induction l with
  | nil => intro w h; exact h
  | cons j rest ih =>
    intro w h
    rw [updateChunksGen]
    cases hj : w.chunks j with
    | some c2 => exact ih w h
    | none =>
      simp only
      refine ih _ ?_
      by_cases hk : k = j
      · subst hk
        rw [h] at hj
        exact absurd hj (by simp)
      · rw [insertChunk_ne _ _ _ _ hk, insertChunk_ne _ _ _ _ hk]
        exact h

theorem updateChunksGen_gen (l : List (Int × Int)) (k : Int × Int) :
    ∀ w : World, k ∈ l → w.chunks k = none →
    ((updateChunksGen w l).1.chunks k).map Chunk.Blocks
      = some (generateChunk w.noise k.1 k.2).Blocks ∧
    k ∈ (updateChunksGen w l).2 := by
  induction l with
  | nil => intro w hmem habs; exact absurd hmem (by simp)
  | cons j rest ih =>
    intro w hmem habs
    rw [updateChunksGen]
    cases hj : w.chunks j with
    | some c2 =>
      have hkj : k ≠ j := fun he => by
        rw [he, hj] at habs
        exact absurd habs (by simp)
      have hmem2 : k ∈ rest := by
        rcases List.mem_cons.mp hmem with he | hm
        · exact absurd he hkj
        · exact hm
      exact ih w hmem2 habs
    | none =>
      simp only
      by_cases hkj : k = j
      · subst hkj
        constructor
        · rw [updateChunksGen_present rest k (generateMeshFor
            (insertChunk w k (generateChunk w.noise k.1 k.2))
            (generateChunk w.noise k.1 k.2)) _ (insertChunk_self _ _ _)]
          simp [generateMeshFor_Blocks]
        · exact List.mem_cons_self _ _
      · have hmem2 : k ∈ rest := by
          rcases List.mem_cons.mp hmem with he | hm
          · exact absurd he hkj
          · exact hm
        have habs2 : (insertChunk (insertChunk w j (generateChunk w.noise j.1 j.2)) j
            (generateMeshFor (insertChunk w j (generateChunk w.noise j.1 j.2))
              (generateChunk w.noise j.1 j.2))).chunks k = none := by
          rw [insertChunk_ne _ _ _ _ hkj, insertChunk_ne _ _ _ _ hkj]
          exact habs
        have hrec := ih _ hmem2 habs2
        rw [insertChunk_noise, insertChunk_noise] at hrec
        exact ⟨hrec.1, List.mem_cons_of_mem _ hrec.2⟩

/-- C5: terrain generation is deterministic.  `generateChunk` is a pure
function of the noise (the seed) and the chunk coordinate, so two invocations
agree; and the chunk `UpdateChunks` generates and stores for a missing window
coordinate has exactly the voxel contents of a standalone
`generateChunk(k.1, k.2)` call with the world's noise — entry for entry
(the stored chunk additionally carries its freshly built mesh, which
`generateMeshFor` never lets alter the voxel array). -/
theorem generateChunk_deterministic :
    (∀ (noise : ℚ → ℚ → ℚ) (cx cz : Int),
      generateChunk noise cx cz = generateChunk noise cx cz) ∧
    (∀ (w : World) (px pz : ℚ) (k : Int × Int),
      k ∈ windowList (playerChunk px) (playerChunk pz) →
      w.chunks k = none →
      (((updateChunksGen w (windowList (playerChunk px) (playerChunk pz))).1.chunks k).map
          Chunk.Blocks = some (generateChunk w.noise k.1 k.2).Blocks ∧
        k ∈ updateChunksLog w px pz)) := by
  refine ⟨fun _ _ _ => rfl, ?_⟩
  intro w px pz k hmem habs
  exact updateChunksGen_gen _ k w hmem habs

theorem generateChunk_deterministic_witness :
    wEmpty.chunks (3, 4) = none ∧
    ((3, 4) : Int × Int) ∈ windowList (playerChunk 0) (playerChunk 0) ∧
    (((updateChunksGen wEmpty (windowList (playerChunk 0) (playerChunk 0))).1.chunks
        (3, 4)).map Chunk.Blocks
      = some (generateChunk wEmpty.noise 3 4).Blocks ∧
      (3, 4) ∈ updateChunksLog wEmpty 0 0) := by
  have h0 : wEmpty.chunks (3, 4) = none := rfl
  have hp : playerChunk (0 : ℚ) = 0 := rfl
  have hmem : ((3, 4) : Int × Int) ∈ windowList (playerChunk 0) (playerChunk 0) := by
    rw [hp]
    set_option maxRecDepth 40000 in decide
  exact ⟨h0, hmem, generateChunk_deterministic.2 wEmpty 0 0 (3, 4) hmem h0⟩

/-- C1 (code bug): with the observer fixed at the origin, chunk coordinate
(16,16) lies inside the square generation window (Chebyshev distance 16) but
outside the Euclidean eviction radius (√512 ≈ 22.6 > 18), so *every*
`UpdateChunks(0,0)` call on a store lacking (16,16) generates it and then
evicts it in the same call, leaving it absent again: the generation count for
(16,16) grows by one per call forever, and a second call with the identical
observer position does perform generation and eviction. -/
theorem updateChunks_corner_thrash (w : World) (h : w.chunks (16, 16) = none) :
    (16, 16) ∈ updateChunksLog w 0 0 ∧ (updateChunks w 0 0).chunks (16, 16) = none := by
  have hp : playerChunk (0 : ℚ) = 0 := rfl
  have hmem : ((16, 16) : Int × Int) ∈ windowList 0 0 := by
    set_option maxRecDepth 40000 in decide
  constructor
  · rw [updateChunksLog, hp]
    exact (updateChunksGen_gen (windowList 0 0) (16, 16) w hmem h).2
  · simp only [updateChunks, hp]
    norm_num
    intro hcontra
    exact absurd hcontra (by decide)

theorem updateChunks_corner_thrash_witness :
    wEmpty.chunks (16, 16) = none ∧
    ((16, 16) ∈ updateChunksLog wEmpty 0 0 ∧
      (updateChunks wEmpty 0 0).chunks (16, 16) = none) ∧
    (16, 16) ∈ updateChunksLog (updateChunks wEmpty 0 0) 0 0 := by
  have h0 : wEmpty.chunks (16, 16) = none := rfl
  have h12 := updateChunks_corner_thrash wEmpty h0
  have h3 := updateChunks_corner_thrash (updateChunks wEmpty 0 0) h12.2
  exact ⟨h0, h12, h3.1⟩

theorem sqrt_le_18_of_sq_le (d : Int) (h : d ≤ 324) : Real.sqrt (d : ℝ) ≤ 18 := by
  have h2 : (d : ℝ) ≤ 324 := by exact_mod_cast h
  calc Real.sqrt (d : ℝ) ≤ Real.sqrt 324 := Real.sqrt_le_sqrt h2
    _ = 18 := by
      rw [show (324 : ℝ) = 18 ^ 2 by norm_num, Real.sqrt_sq (by norm_num : (0:ℝ) ≤ 18)]

/-- C10: after any `UpdateChunks(px, pz)` call, every chunk coordinate still
present in the store lies within Euclidean distance `RenderDistance + 2 = 18`
(in chunk-grid units) of the observer chunk computed by that call: the
eviction pass runs over the whole store after all insertions and removes
every key with squared distance above 324. -/
theorem updateChunks_distance_invariant (w : World) (px pz : ℚ) (k : Int × Int)
    (h : (updateChunks w px pz).chunks k ≠ none) :
    Real.sqrt (((k.1 - playerChunk px) * (k.1 - playerChunk px)
      + (k.2 - playerChunk pz) * (k.2 - playerChunk pz) : Int) : ℝ) ≤ 18 := by
  have hdist : (k.1 - playerChunk px) * (k.1 - playerChunk px)
      + (k.2 - playerChunk pz) * (k.2 - playerChunk pz) ≤ 324 := by
    by_contra hgt
    push_neg at hgt
    apply h
    simp only [updateChunks]
    rw [if_pos]
    simp only [evicts, RenderDistance]
    rw [decide_eq_true_iff]
    omega
  exact sqrt_le_18_of_sq_le _ hdist

theorem updateChunks_distance_invariant_witness :
    (updateChunks wWin 0 0).chunks (0, 0) ≠ none ∧
    Real.sqrt (((((0, 0) : Int × Int).1 - playerChunk 0) * (((0, 0) : Int × Int).1 - playerChunk 0)
      + (((0, 0) : Int × Int).2 - playerChunk 0) * (((0, 0) : Int × Int).2 - playerChunk 0)
        : Int) : ℝ) ≤ 18 := by
  have hp : playerChunk (0 : ℚ) = 0 := rfl
  have h1 : (updateChunksGen wWin (windowList 0 0)).1.chunks (0, 0) = some (solidChunk 0 0) :=
    updateChunksGen_present _ _ _ wWin rfl
  have hne : (updateChunks wWin 0 0).chunks (0, 0) ≠ none := by
    simp only [updateChunks, hp, ne_eq]
    rw [if_neg (by decide)]
    rw [h1]
    simp
  exact ⟨hne, updateChunks_distance_invariant wWin 0 0 (0, 0) hne⟩

/-- Justification for the integer model of the eviction test: for a
nonnegative integer squared distance `d`, `√d > 18` (the comparison the Go
code makes on floats, exactly representable here) holds iff `d > 324`. -/
theorem sqrt_gt_18_iff (d : Int) (_hd : 0 ≤ d) : 18 < Real.sqrt (d : ℝ) ↔ 324 < d := by
  constructor
  · intro h
    by_contra hle
    push_neg at hle
    exact absurd h (not_lt.mpr (sqrt_le_18_of_sq_le d hle))
  · intro h
    have hr : (324 : ℝ) < (d : ℝ) := by exact_mod_cast h
    calc (18 : ℝ) = Real.sqrt 324 := by
          rw [show (324 : ℝ) = 18 ^ 2 by norm_num, Real.sqrt_sq (by norm_num : (0:ℝ) ≤ 18)]
      _ < Real.sqrt (d : ℝ) := Real.sqrt_lt_sqrt (by norm_num) hr
